import Mathlib

/-!
Verification of the `CallInputUnnecessary` lint rule from
`crates/wdl-lint/src/rules/call_input_unnecessary.rs`.

The rule file is embedded faithfully; the supporting types it imports
(`wdl_ast::SupportedVersion`, `wdl_analysis::Diagnostics` with its
suppression-aware `exceptable_add`, and the tree walker driving the
visitor) are not part of the sources and are modelled from the spec,
as marked on each such definition.
-/

namespace Sprocket

/-- The Enter/Exit tag attached to every traversal callback invocation
(`wdl_analysis::VisitReason`). -/
inductive VisitReason where
  | Enter
  | Exit
  deriving DecidableEq, Repr

/-- A byte-range location in source text (`wdl_ast::Span`). -/
structure Span where
  start : Nat
  len : Nat
  deriving DecidableEq, Repr

/-- The node/token kind tags this rule touches (`wdl_ast::SyntaxKind`),
plus a few token kinds appearing in a call statement. -/
inductive SyntaxKind where
  | InputKeyword
  | VersionStatementNode
  | CallStatementNode
  | WorkflowDefinitionNode
  | CallKeyword
  | Ident
  | OpenBrace
  | CloseBrace
  | Colon
  | Assignment
  | IntegerLiteral
  | Whitespace
  deriving DecidableEq, Repr

instance : BEq SyntaxKind := ⟨fun a b => decide (a = b)⟩

/-- An immediate child (node or token) of a syntax node, as produced by
`children_with_tokens()`: its kind and its `text_range()` span. -/
structure SyntaxElement where
  kind : SyntaxKind
  span : Span
  deriving DecidableEq, Repr

/-- Diagnostic severity; this rule only builds warnings. -/
inductive Severity where
  | Warning
  | Error
  deriving DecidableEq, Repr

/-- An immutable diagnostic record (`wdl_ast::Diagnostic`): severity,
message, rule identifier, highlighted span, optional suggested fix. -/
structure Diagnostic where
  severity : Severity
  message : String
  rule : Option String
  highlight : Option Span
  fix : Option String
  deriving DecidableEq, Repr

/-- `Diagnostic::warning(message)`. -/
def Diagnostic.warning (message : String) : Diagnostic :=
  { severity := Severity.Warning, message := message, rule := none,
    highlight := none, fix := none }

/-- `Diagnostic::with_rule`. -/
def Diagnostic.with_rule (d : Diagnostic) (r : String) : Diagnostic :=
  { d with rule := some r }

/-- `Diagnostic::with_highlight`. -/
def Diagnostic.with_highlight (d : Diagnostic) (s : Span) : Diagnostic :=
  { d with highlight := some s }

/-- `Diagnostic::with_fix`. -/
def Diagnostic.with_fix (d : Diagnostic) (f : String) : Diagnostic :=
  { d with fix := some f }

/-- The identifier for this rule (`const ID`). -/
def ID : String := "CallInputUnnecessary"

/-- `fn call_input_unnecessary(span: Span) -> Diagnostic`. -/
def call_input_unnecessary (span : Span) : Diagnostic :=
  (((Diagnostic.warning
      "the \x27input:\x27 keyword is unnecessary for WDL version 1.2 and later").with_rule
      ID).with_highlight span).with_fix
    "remove the \x27input:\x27 keyword from the call statement"

/-- Modelled from the spec: `wdl_ast::SupportedVersion` is not part of the
sources; the spec describes the document version as "an ordered, comparable
value representing the declared specification version of the document
(e.g., major.minor pair)" with "a total order over (major, minor) pairs". -/
structure SupportedVersion where
  major : Nat
  minor : Nat
  deriving DecidableEq, Repr

/-- Modelled from the spec: lexicographic (total-order) comparison `a <= b`
over (major, minor) pairs. -/
def SupportedVersion.le (a b : SupportedVersion) : Bool :=
  Nat.blt a.major b.major || (Nat.beq a.major b.major && Nat.ble a.minor b.minor)

/-- Modelled from the spec: strict lexicographic comparison `a < b`. -/
def SupportedVersion.lt (a b : SupportedVersion) : Bool :=
  Nat.blt a.major b.major || (Nat.beq a.major b.major && Nat.blt a.minor b.minor)

/-- `SupportedVersion::V1(V1::One)`, i.e. WDL version 1.1. -/
def versionV1One : SupportedVersion := ⟨1, 1⟩

/-- `SupportedVersion::V1(V1::Two)`, i.e. WDL version 1.2 — the threshold
version at which the keyword became optional. -/
def versionV1Two : SupportedVersion := ⟨1, 2⟩

/-- Modelled from the spec: one step of the upward suppression chain used by
the suppression-aware emission path — a node (the violating node itself, then
its ancestors), with its kind and the rule identifiers named by user-authored
suppression markers attached to it (the wildcard is the string `"*"`). -/
structure AncestorInfo where
  kind : SyntaxKind
  suppressed : List String
  deriving DecidableEq, Repr

/-- Shallow embedding of `wdl_ast::v1::CallStatement` as seen by this rule:
the immediate children-with-tokens of the call node, plus (modelled from the
spec) the suppression chain of the node itself and its ancestors, which the
suppression-aware emission path walks. -/
structure CallStatement where
  children : List SyntaxElement
  context : List AncestorInfo
  deriving DecidableEq, Repr

/-- `call.inner().children_with_tokens()`: the immediate children (nodes and
tokens) of the call-statement node, in source order. -/
def CallStatement.children_with_tokens (c : CallStatement) : List SyntaxElement :=
  c.children

/-- The document-scoped append-only diagnostics sink
(`wdl_analysis::Diagnostics`). -/
structure Diagnostics where
  diagnostics : List Diagnostic
  deriving DecidableEq, Repr

/-- Modelled from the spec: the suppression lookup of the emission path —
walk the chain of the violating node and its ancestors for one whose kind is
in the rule's exceptable set and which carries a suppression marker naming
the rule identifier or the wildcard. -/
def excepted (context : List AncestorInfo) (ruleId : String)
    (exceptable : Option (List SyntaxKind)) : Bool :=
  context.any fun a =>
    (match exceptable with
      | some kinds => kinds.contains a.kind
      | none => false)
    && (a.suppressed.contains ruleId || a.suppressed.contains "*")

/-- Modelled from the spec: `Diagnostics::exceptable_add` — given a
diagnostic, the originating node (its suppression chain), and the rule's
declared exceptable node kinds, drop the diagnostic when a suppression
marker applies, otherwise append it to the document's collection. -/
def Diagnostics.exceptable_add (s : Diagnostics) (d : Diagnostic)
    (context : List AncestorInfo) (exceptable : Option (List SyntaxKind)) :
    Diagnostics :=
  match d.rule with
  | some rid => if excepted context rid exceptable then s
      else ⟨s.diagnostics ++ [d]⟩
  | none => ⟨s.diagnostics ++ [d]⟩

/-- `pub struct CallInputUnnecessaryRule { version: Option<SupportedVersion> }`. -/
structure CallInputUnnecessaryRule where
  version : Option SupportedVersion
  deriving DecidableEq, Repr

/-- `#[derive(Default)]`: `Option::default()` is `None`. -/
def CallInputUnnecessaryRule.default : CallInputUnnecessaryRule := ⟨none⟩

/-- `fn id(&self)`. -/
def CallInputUnnecessaryRule.id (_ : CallInputUnnecessaryRule) : String := ID

/-- `fn exceptable_nodes(&self)`. -/
def CallInputUnnecessaryRule.exceptable_nodes (_ : CallInputUnnecessaryRule) :
    Option (List SyntaxKind) :=
  some [SyntaxKind.VersionStatementNode, SyntaxKind.CallStatementNode,
    SyntaxKind.WorkflowDefinitionNode]

/-- `fn reset(&mut self) { *self = Self::default(); }`. -/
def CallInputUnnecessaryRule.reset (_ : CallInputUnnecessaryRule) :
    CallInputUnnecessaryRule :=
  CallInputUnnecessaryRule.default

/-- `fn document(...)`: on Enter record the resolved document version,
otherwise do nothing. State passing makes the mutation explicit. -/
def CallInputUnnecessaryRule.document (rule : CallInputUnnecessaryRule)
    (diagnostics : Diagnostics) (reason : VisitReason)
    (version : SupportedVersion) : CallInputUnnecessaryRule × Diagnostics :=
  if reason = VisitReason.Enter then
    ({ rule with version := some version }, diagnostics)
  else (rule, diagnostics)

/-- `fn call_statement(...)`: return on Exit; skip when no version is
recorded; skip when `version <= SupportedVersion::V1(V1::One)`; otherwise
find the first `InputKeyword` among the immediate children-with-tokens and
submit one diagnostic through `exceptable_add`. -/
def CallInputUnnecessaryRule.call_statement (rule : CallInputUnnecessaryRule)
    (diagnostics : Diagnostics) (reason : VisitReason) (call : CallStatement) :
    CallInputUnnecessaryRule × Diagnostics :=
  if reason = VisitReason.Exit then (rule, diagnostics)
  else
    match rule.version with
    | none => (rule, diagnostics)
    | some version =>
      if SupportedVersion.le version versionV1One then (rule, diagnostics)
      else
        match call.children_with_tokens.find?
            (fun c => c.kind == SyntaxKind.InputKeyword) with
        | some input_keyword =>
          (rule, diagnostics.exceptable_add
            (call_input_unnecessary input_keyword.span)
            call.context rule.exceptable_nodes)
        | none => (rule, diagnostics)

/-- Modelled from the spec: a document as the walker presents it to this
rule — the resolved document version and the call-statement nodes in
depth-first document order. -/
structure Document where
  version : SupportedVersion
  calls : List CallStatement
  deriving DecidableEq, Repr

/-- Modelled from the spec: the walker visits each call-statement node once
on Enter and once on Exit. -/
def visitCall (state : CallInputUnnecessaryRule × Diagnostics)
    (call : CallStatement) : CallInputUnnecessaryRule × Diagnostics :=
  let s1 := state.1.call_statement state.2 VisitReason.Enter call
  s1.1.call_statement s1.2 VisitReason.Exit call

/-- Modelled from the spec: one full traversal of a document — the
document-entry handler fires with Enter before any node handler, each
call statement is visited Enter then Exit in document order, and the
document handler fires again with Exit at the end. -/
def runRule (rule : CallInputUnnecessaryRule) (doc : Document) :
    CallInputUnnecessaryRule × Diagnostics :=
  let s0 := rule.document ⟨[]⟩ VisitReason.Enter doc.version
  let s1 := doc.calls.foldl visitCall s0
  s1.1.document s1.2 VisitReason.Exit doc.version

/-- The diagnostic (if any) that one call-statement visit contributes to the
final collection, given the document version: the version gate, the search
for the first `InputKeyword` child, and the suppression decision. -/
def emitFor (version : SupportedVersion) (call : CallStatement) :
    Option Diagnostic :=
  if SupportedVersion.le version versionV1One then none
  else
    match call.children_with_tokens.find?
        (fun c => c.kind == SyntaxKind.InputKeyword) with
    | some tok =>
      if excepted call.context ID
          (CallInputUnnecessaryRule.default.exceptable_nodes) then none
      else some (call_input_unnecessary tok.span)
    | none => none

instance : LawfulBEq SyntaxKind :=
  ⟨fun h => of_decide_eq_true h, decide_eq_true rfl⟩

/-- The spec's concrete scenario: the immediate children-with-tokens of the
call-statement node for the source text `call foo ... ` with the optional
keyword, the `input` keyword token occupying bytes 11..16, in an
unsuppressed context. -/
def exampleCall : CallStatement :=
  ⟨[⟨SyntaxKind.CallKeyword, ⟨0, 4⟩⟩, ⟨SyntaxKind.Whitespace, ⟨4, 1⟩⟩,
    ⟨SyntaxKind.Ident, ⟨5, 3⟩⟩, ⟨SyntaxKind.Whitespace, ⟨8, 1⟩⟩,
    ⟨SyntaxKind.OpenBrace, ⟨9, 1⟩⟩, ⟨SyntaxKind.Whitespace, ⟨10, 1⟩⟩,
    ⟨SyntaxKind.InputKeyword, ⟨11, 5⟩⟩, ⟨SyntaxKind.Colon, ⟨16, 1⟩⟩,
    ⟨SyntaxKind.Whitespace, ⟨17, 1⟩⟩, ⟨SyntaxKind.Ident, ⟨18, 1⟩⟩,
    ⟨SyntaxKind.Whitespace, ⟨19, 1⟩⟩, ⟨SyntaxKind.Assignment, ⟨20, 1⟩⟩,
    ⟨SyntaxKind.Whitespace, ⟨21, 1⟩⟩, ⟨SyntaxKind.IntegerLiteral, ⟨22, 1⟩⟩,
    ⟨SyntaxKind.Whitespace, ⟨23, 1⟩⟩, ⟨SyntaxKind.CloseBrace, ⟨24, 1⟩⟩],
   [⟨SyntaxKind.CallStatementNode, []⟩, ⟨SyntaxKind.WorkflowDefinitionNode, []⟩]⟩

/-- A second offending call statement, later in document order, its
`input` keyword token at bytes 40..45. -/
def exampleCallB : CallStatement :=
  ⟨[⟨SyntaxKind.CallKeyword, ⟨29, 4⟩⟩, ⟨SyntaxKind.Ident, ⟨34, 3⟩⟩,
    ⟨SyntaxKind.OpenBrace, ⟨38, 1⟩⟩, ⟨SyntaxKind.InputKeyword, ⟨40, 5⟩⟩,
    ⟨SyntaxKind.CloseBrace, ⟨50, 1⟩⟩],
   [⟨SyntaxKind.CallStatementNode, []⟩, ⟨SyntaxKind.WorkflowDefinitionNode, []⟩]⟩

/-- A version-1.2 document holding the spec's concrete call statement. -/
def exampleDoc : Document := ⟨⟨1, 2⟩, [exampleCall]⟩

/-- A version-1.2 document holding two offending call statements in
document order. -/
def exampleDocTwo : Document := ⟨⟨1, 2⟩, [exampleCall, exampleCallB]⟩

/-! ## Helper lemmas -/

/-- The Exit branch of the call-statement handler is the identity. -/
theorem call_statement_exit (rule : CallInputUnnecessaryRule)
    (diags : Diagnostics) (call : CallStatement) :
    rule.call_statement diags VisitReason.Exit call = (rule, diags) := rfl

/-- The call-statement handler never changes the rule state. -/
theorem call_statement_rule_unchanged (rule : CallInputUnnecessaryRule)
    (diags : Diagnostics) (reason : VisitReason) (call : CallStatement) :
    (rule.call_statement diags reason call).1 = rule := by
  unfold CallInputUnnecessaryRule.call_statement
  split
  · rfl
  · split
    · rfl
    · split
      · rfl
      · split <;> rfl

/-- The diagnostics produced by one Enter visit of a call statement once a
version is recorded: the version gate, then the search for the first
`InputKeyword` among immediate children, then one `exceptable_add`. -/
theorem call_statement_enter_snd (rule : CallInputUnnecessaryRule)
    (diags : Diagnostics) (call : CallStatement) (v : SupportedVersion)
    (hv : rule.version = some v) :
    (rule.call_statement diags VisitReason.Enter call).2 =
      if SupportedVersion.le v versionV1One then diags
      else
        match call.children_with_tokens.find?
            (fun c => c.kind == SyntaxKind.InputKeyword) with
        | some tok => diags.exceptable_add (call_input_unnecessary tok.span)
            call.context rule.exceptable_nodes
        | none => diags := by
  unfold CallInputUnnecessaryRule.call_statement
  simp only [hv, reduceIte, reduceCtorEq]
  split
  · rfl
  · split <;> rfl

/-- With no version recorded, the Enter branch of the call-statement
handler is the identity. -/
theorem call_statement_no_version (rule : CallInputUnnecessaryRule)
    (diags : Diagnostics) (call : CallStatement) (h : rule.version = none) :
    rule.call_statement diags VisitReason.Enter call = (rule, diags) := by
  unfold CallInputUnnecessaryRule.call_statement
  simp [h]

/-- `call_input_unnecessary` always carries this rule's identifier. -/
theorem call_input_unnecessary_rule (sp : Span) :
    (call_input_unnecessary sp).rule = some ID := rfl

/-- `exceptable_add` on a diagnostic of this rule: drop it when the
suppression lookup succeeds, append it otherwise. -/
theorem exceptable_add_rule_diag (s : Diagnostics) (sp : Span)
    (ctx : List AncestorInfo) (exc : Option (List SyntaxKind)) :
    s.exceptable_add (call_input_unnecessary sp) ctx exc =
      if excepted ctx ID exc then s
      else ⟨s.diagnostics ++ [call_input_unnecessary sp]⟩ := rfl

/-- The code gate `version <= SupportedVersion::V1(V1::One)` is exactly the
spec's strict comparison against the threshold version 1.2. -/
theorem gate_strict (v : SupportedVersion) :
    SupportedVersion.le v versionV1One = SupportedVersion.lt v versionV1Two := by
  rcases v with ⟨ma, mi⟩
  rw [Bool.eq_iff_iff]
  simp only [SupportedVersion.le, SupportedVersion.lt, versionV1One, versionV1Two,
    Bool.or_eq_true, Bool.and_eq_true, Nat.blt_eq, Nat.ble_eq, Nat.beq_eq]
  omega

/-- A version at or above the threshold does not trip the code gate. -/
theorem gate_false_of_threshold_le (v : SupportedVersion)
    (h : SupportedVersion.le versionV1Two v = true) :
    SupportedVersion.le v versionV1One = false := by
  rcases v with ⟨ma, mi⟩
  simp only [SupportedVersion.le, versionV1Two, versionV1One, Bool.or_eq_true,
    Bool.and_eq_true, Nat.blt_eq, Nat.ble_eq, Nat.beq_eq] at h
  simp only [SupportedVersion.le, versionV1One, Bool.or_eq_false_iff,
    Bool.and_eq_false_iff]
  simp only [← Bool.not_eq_true, Nat.blt_eq, Nat.ble_eq, Nat.beq_eq]
  omega

/-- One Enter/Exit visit of a call statement contributes exactly
`emitFor version call` to the sink and leaves the rule state unchanged. -/
theorem visitCall_eq (rule : CallInputUnnecessaryRule) (ds : List Diagnostic)
    (c : CallStatement) (v : SupportedVersion) (hv : rule.version = some v) :
    visitCall (rule, ⟨ds⟩) c = (rule, ⟨ds ++ (emitFor v c).toList⟩) := by
  unfold visitCall
  have h1 := call_statement_rule_unchanged rule ⟨ds⟩ VisitReason.Enter c
  have h2 := call_statement_enter_snd rule ⟨ds⟩ c v hv
  rcases hsplit : rule.call_statement ⟨ds⟩ VisitReason.Enter c with ⟨r1, d1⟩
  rw [hsplit] at h1 h2
  simp only at h1 h2
  subst h1
  rw [call_statement_exit]
  unfold emitFor
  split at h2
  · simp_all
  · rename_i hgate
    split at h2
    · rename_i tok hfind
      rw [exceptable_add_rule_diag] at h2
      simp only [hgate, reduceIte, hfind]
      split at h2
      · rename_i hexc
        simp_all [CallInputUnnecessaryRule.exceptable_nodes]
      · rename_i hexc
        simp_all [CallInputUnnecessaryRule.exceptable_nodes]
    · rename_i hfind
      simp_all

/-- Folding the walker over a list of call statements, once a version is
recorded, appends the per-call contributions in document order. -/
theorem foldl_visitCall (v : SupportedVersion) (calls : List CallStatement)
    (rule : CallInputUnnecessaryRule) (ds : List Diagnostic)
    (hv : rule.version = some v) :
    calls.foldl visitCall (rule, ⟨ds⟩) =
      (rule, ⟨ds ++ calls.filterMap (emitFor v)⟩) := by
  induction calls generalizing ds with
  | nil => simp
  | cons c cs ih =>
    rw [List.foldl_cons, visitCall_eq rule ds c v hv, ih]
    rcases h : emitFor v c with _ | d <;> simp [h, List.filterMap_cons]

/-- Full characterization of one traversal: the final rule state records the
document version, and the diagnostic collection is exactly the per-call
contributions in document order, independent of the starting rule state. -/
theorem runRule_eq (rule : CallInputUnnecessaryRule) (doc : Document) :
    runRule rule doc =
      (⟨some doc.version⟩, ⟨doc.calls.filterMap (emitFor doc.version)⟩) := by
  show (let s0 := rule.document ⟨[]⟩ VisitReason.Enter doc.version
        let s1 := doc.calls.foldl visitCall s0
        s1.1.document s1.2 VisitReason.Exit doc.version) = _
  have h0 : rule.document ⟨[]⟩ VisitReason.Enter doc.version =
      ((⟨some doc.version⟩ : CallInputUnnecessaryRule), (⟨[]⟩ : Diagnostics)) := rfl
  simp only [h0, foldl_visitCall doc.version doc.calls ⟨some doc.version⟩ [] rfl]
  rfl

/-- Order preservation of `List.filterMap`: hits at positions `i < j` of the
input land at positions `p < q` of the output. -/
theorem filterMap_order {α β : Type} (f : α → Option β) (l : List α)
    (i j : Nat) (hij : i < j) (hj : j < l.length) (b₁ b₂ : β)
    (h1 : f (l.get ⟨i, Nat.lt_trans hij hj⟩) = some b₁)
    (h2 : f (l.get ⟨j, hj⟩) = some b₂) :
    ∃ p q, p < q ∧ (l.filterMap f).get? p = some b₁ ∧
      (l.filterMap f).get? q = some b₂ := by
  induction l generalizing i j with
  | nil => exact absurd hj (by simp)
  | cons a l ih =>
    cases i with
    | zero =>
      cases j with
      | zero => exact absurd hij (by omega)
      | succ j =>
        have h1a : f a = some b₁ := h1
        have hj' : j < l.length := by simpa using hj
        have h2l : f (l.get ⟨j, hj'⟩) = some b₂ := h2
        have hmem : b₂ ∈ l.filterMap f :=
          List.mem_filterMap.mpr ⟨l.get ⟨j, hj'⟩, List.get_mem _ _ _, h2l⟩
        obtain ⟨q, hq⟩ := List.get?_of_mem hmem
        refine ⟨0, q + 1, by omega, ?_, ?_⟩
        · simp only [List.filterMap_cons, h1a, List.get?_cons_zero]
        · simp only [List.filterMap_cons, h1a, List.get?_cons_succ]
          exact hq
    | succ i =>
      cases j with
      | zero => exact absurd hij (by omega)
      | succ j =>
        have hj' : j < l.length := by simpa using hj
        have h1l : f (l.get ⟨i, Nat.lt_trans (by omega) hj'⟩) = some b₁ := h1
        have h2l : f (l.get ⟨j, hj'⟩) = some b₂ := h2
        obtain ⟨p, q, hpq, hp, hq⟩ :=
          ih i j (by omega) hj' h1l h2l
        cases hfa : f a with
        | none =>
          refine ⟨p, q, hpq, ?_, ?_⟩
          · simp only [List.filterMap_cons, hfa]
            exact hp
          · simp only [List.filterMap_cons, hfa]
            exact hq
        | some b =>
          refine ⟨p + 1, q + 1, by omega, ?_, ?_⟩
          · simp only [List.filterMap_cons, hfa, List.get?_cons_succ]
            exact hp
          · simp only [List.filterMap_cons, hfa, List.get?_cons_succ]
            exact hq

/-- `List.contains` agrees with membership for lawful equality tests. -/
theorem contains_eq_mem {α : Type} [BEq α] [LawfulBEq α] (l : List α)
    (a : α) : l.contains a = true ↔ a ∈ l :=
  List.elem_iff

/-! ## Claims -/

/-- C1: for every document whose recorded version is strictly below the
threshold version 1.2, the call-statement handler emits zero diagnostics
and changes nothing, regardless of whether an `InputKeyword` token is
present in the call statement; and the code's gate
(`version <= SupportedVersion::V1(V1::One)`) coincides with the strict
ordering comparison against the threshold, so versions at or above the
threshold fall through to the check. -/
theorem claim_C1 (rule : CallInputUnnecessaryRule) (diags : Diagnostics)
    (reason : VisitReason) (call : CallStatement) (v : SupportedVersion)
    (hv : rule.version = some v)
    (hlt : SupportedVersion.lt v versionV1Two = true) :
    rule.call_statement diags reason call = (rule, diags) ∧
    SupportedVersion.le v versionV1One = SupportedVersion.lt v versionV1Two := by
  have hg := gate_strict v
  have hgate : SupportedVersion.le v versionV1One = true := by rw [hg, hlt]
  refine ⟨?_, hg⟩
  cases reason with
  | Exit => exact call_statement_exit rule diags call
  | Enter =>
    unfold CallInputUnnecessaryRule.call_statement
    simp [hv, hgate]

/-- Witness for C1 at version 1.1 on a call statement that does contain the
`InputKeyword` token. -/
theorem claim_C1_witness :
    CallInputUnnecessaryRule.call_statement ⟨some ⟨1, 1⟩⟩ ⟨[]⟩
        VisitReason.Enter exampleCall = (⟨some ⟨1, 1⟩⟩, ⟨[]⟩) :=
  (claim_C1 ⟨some ⟨1, 1⟩⟩ ⟨[]⟩ VisitReason.Enter exampleCall ⟨1, 1⟩ rfl
    (by decide)).1

/-- C5: the call-statement handler invoked with VisitReason Exit does
nothing — no diagnostic, no state change — so a node visited twice (enter
and exit) is processed at most once. -/
theorem claim_C5 (rule : CallInputUnnecessaryRule) (diags : Diagnostics)
    (call : CallStatement) :
    rule.call_statement diags VisitReason.Exit call = (rule, diags) :=
  call_statement_exit rule diags call

/-- C6: the call-statement handler invoked on Enter before any version has
been recorded does nothing — no diagnostic, no state change, no failure
(the handler is a total function, so the traversal cannot be aborted or
crashed by it). -/
theorem claim_C6 (rule : CallInputUnnecessaryRule) (diags : Diagnostics)
    (call : CallStatement) (h : rule.version = none) :
    rule.call_statement diags VisitReason.Enter call = (rule, diags) := by
  unfold CallInputUnnecessaryRule.call_statement
  simp [h]

/-- Witness for C6: the default (version-unknown) rule on the concrete
offending call statement. -/
theorem claim_C6_witness :
    CallInputUnnecessaryRule.call_statement CallInputUnnecessaryRule.default
        ⟨[]⟩ VisitReason.Enter exampleCall =
      (CallInputUnnecessaryRule.default, ⟨[]⟩) :=
  claim_C6 CallInputUnnecessaryRule.default ⟨[]⟩ exampleCall rfl

/-- C7: the stored version is written only by the document handler on
Enter — on Exit the document handler is a no-op, and the call-statement
handler never writes the rule state (it is a reader only). -/
theorem claim_C7 (rule : CallInputUnnecessaryRule) (diags : Diagnostics)
    (reason : VisitReason) (call : CallStatement) (dv : SupportedVersion) :
    rule.document diags VisitReason.Exit dv = (rule, diags) ∧
    (rule.document diags VisitReason.Enter dv).1.version = some dv ∧
    (rule.document diags VisitReason.Enter dv).2 = diags ∧
    (rule.call_statement diags reason call).1 = rule :=
  ⟨rfl, rfl, rfl, call_statement_rule_unchanged rule diags reason call⟩

/-- C2: on Enter with a recorded version at or above the threshold 1.2, if
an `InputKeyword` token occurs among the call node's immediate token
children then the handler submits exactly one diagnostic — through the
suppression-aware path, with the originating node and the rule's
exceptable kinds — whose highlighted span equals the span of the first such
token, and the collection grows by at most that one diagnostic; if no such
token occurs among the immediate children, it submits zero diagnostics. -/
theorem claim_C2 (rule : CallInputUnnecessaryRule) (diags : Diagnostics)
    (call : CallStatement) (v : SupportedVersion)
    (hv : rule.version = some v)
    (hge : SupportedVersion.le versionV1Two v = true) :
    (∀ tok, call.children_with_tokens.find?
        (fun c => c.kind == SyntaxKind.InputKeyword) = some tok →
      (rule.call_statement diags VisitReason.Enter call).2 =
        diags.exceptable_add (call_input_unnecessary tok.span) call.context
          rule.exceptable_nodes ∧
      (call_input_unnecessary tok.span).highlight = some tok.span ∧
      ((rule.call_statement diags VisitReason.Enter call).2.diagnostics =
          diags.diagnostics ∨
        (rule.call_statement diags VisitReason.Enter call).2.diagnostics =
          diags.diagnostics ++ [call_input_unnecessary tok.span])) ∧
    (call.children_with_tokens.find?
        (fun c => c.kind == SyntaxKind.InputKeyword) = none →
      (rule.call_statement diags VisitReason.Enter call).2 = diags) := by
  have hgate := gate_false_of_threshold_le v hge
  have h2 := call_statement_enter_snd rule diags call v hv
  rw [hgate] at h2
  simp only [Bool.false_eq_true, if_false] at h2
  constructor
  · intro tok hfind
    rw [hfind] at h2
    have h2a : (rule.call_statement diags VisitReason.Enter call).2 =
        diags.exceptable_add (call_input_unnecessary tok.span) call.context
          rule.exceptable_nodes := h2
    refine ⟨h2a, rfl, ?_⟩
    rw [h2a, exceptable_add_rule_diag]
    split
    · left; rfl
    · right; rfl
  · intro hnone
    rw [hnone] at h2
    exact h2

/-- Witness for C2 at version 1.2 on the concrete offending call
statement, whose first (and only) `InputKeyword` child spans bytes
11..16. -/
theorem claim_C2_witness :
    (CallInputUnnecessaryRule.call_statement ⟨some ⟨1, 2⟩⟩ ⟨[]⟩
        VisitReason.Enter exampleCall).2 =
      Diagnostics.exceptable_add ⟨[]⟩ (call_input_unnecessary ⟨11, 5⟩)
        exampleCall.context
        (CallInputUnnecessaryRule.exceptable_nodes ⟨some ⟨1, 2⟩⟩) ∧
    (call_input_unnecessary ⟨11, 5⟩).highlight = some ⟨11, 5⟩ := by
  have h := (claim_C2 ⟨some ⟨1, 2⟩⟩ ⟨[]⟩ exampleCall ⟨1, 2⟩ rfl (by decide)).1
    ⟨SyntaxKind.InputKeyword, ⟨11, 5⟩⟩ (by decide)
  exact ⟨h.1, h.2.1⟩

/-- C3: a diagnostic of this rule submitted through the suppression-aware
path is absent from the collection exactly when some node of the chain
(the violating node or an ancestor) whose kind is among the rule's
declared exceptable node kinds carries a suppression marker naming this
rule's identifier or the wildcard, and is appended otherwise; the
inclusion decision is the pure function `excepted` of the
(chain, rule-id, exceptable-set) triple, hence deterministic; and the
call-statement handler submits every diagnostic through this path, with
the originating call node's chain and its own exceptable-kinds set. -/
theorem claim_C3 (s : Diagnostics) (sp : Span) (ctx : List AncestorInfo) :
    ((excepted ctx ID (CallInputUnnecessaryRule.default.exceptable_nodes) =
        true ↔
      ∃ a ∈ ctx,
        (a.kind = SyntaxKind.VersionStatementNode ∨
          a.kind = SyntaxKind.CallStatementNode ∨
          a.kind = SyntaxKind.WorkflowDefinitionNode) ∧
        (ID ∈ a.suppressed ∨ "*" ∈ a.suppressed)) ∧
      (s.exceptable_add (call_input_unnecessary sp) ctx
          (CallInputUnnecessaryRule.default.exceptable_nodes)).diagnostics =
        if excepted ctx ID (CallInputUnnecessaryRule.default.exceptable_nodes)
        then s.diagnostics
        else s.diagnostics ++ [call_input_unnecessary sp]) ∧
    ∀ (rule : CallInputUnnecessaryRule) (diags : Diagnostics)
      (reason : VisitReason) (call : CallStatement),
      (rule.call_statement diags reason call).2 = diags ∨
      ∃ tok,
        call.children_with_tokens.find?
            (fun c => c.kind == SyntaxKind.InputKeyword) = some tok ∧
        (rule.call_statement diags reason call).2 =
          diags.exceptable_add (call_input_unnecessary tok.span) call.context
            rule.exceptable_nodes := by
  refine ⟨⟨?_, ?_⟩, ?_⟩
  · simp only [excepted, CallInputUnnecessaryRule.exceptable_nodes,
      List.any_eq_true, Bool.and_eq_true, Bool.or_eq_true,
      contains_eq_mem, List.mem_cons, List.not_mem_nil, or_false]
  · rw [exceptable_add_rule_diag]
    split <;> rfl
  · intro rule diags reason call
    cases reason with
    | Exit => left; rfl
    | Enter =>
      cases hv : rule.version with
      | none =>
        left
        rw [call_statement_no_version rule diags call hv]
      | some v =>
        have h2 := call_statement_enter_snd rule diags call v hv
        cases hgate : SupportedVersion.le v versionV1One with
        | true =>
          left
          rw [hgate] at h2
          simpa using h2
        | false =>
          rw [hgate] at h2
          simp only [Bool.false_eq_true, if_false] at h2
          cases hfind : call.children_with_tokens.find?
              (fun c => c.kind == SyntaxKind.InputKeyword) with
          | none =>
            left
            rw [hfind] at h2
            exact h2
          | some tok =>
            right
            rw [hfind] at h2
            exact ⟨tok, rfl, h2⟩

/-- C4: `reset` restores the default, version-unknown state, and re-running
the traversal after `reset` on the same document yields the same result —
in particular a byte-for-byte identical diagnostic collection. -/
theorem claim_C4 (rule : CallInputUnnecessaryRule) (doc : Document) :
    rule.reset = CallInputUnnecessaryRule.default ∧
    runRule ((runRule rule doc).1.reset) doc = runRule rule doc := by
  refine ⟨rfl, ?_⟩
  rw [runRule_eq, runRule_eq]

/-- C8: every diagnostic the rule builds has severity warning, carries the
rule identifier returned by the rule's own `id` accessor, and its message
mentions the keyword being unnecessary; concretely, on a version-1.2
document with the call statement of the spec's scenario, one such
diagnostic is produced whose span covers exactly the keyword token. -/
theorem claim_C8 :
    (∀ sp : Span,
      (call_input_unnecessary sp).severity = Severity.Warning ∧
      (call_input_unnecessary sp).rule =
        some (CallInputUnnecessaryRule.default.id) ∧
      ∃ pre post, (call_input_unnecessary sp).message =
        pre ++ "unnecessary" ++ post) ∧
    (runRule CallInputUnnecessaryRule.default exampleDoc).2.diagnostics =
      [call_input_unnecessary ⟨11, 5⟩] ∧
    (call_input_unnecessary ⟨11, 5⟩).severity = Severity.Warning ∧
    (call_input_unnecessary ⟨11, 5⟩).highlight = some ⟨11, 5⟩ := by
  refine ⟨fun sp => ⟨rfl, rfl,
    "the \x27input:\x27 keyword is ", " for WDL version 1.2 and later", ?_⟩,
    ?_, rfl, rfl⟩
  · rfl
  · rw [runRule_eq]
    rfl

/-- C9: diagnostics are appended in traversal order — if call statements at
positions `i < j` of the document both contribute a diagnostic, the first
one's diagnostic occurs at an earlier position of the final collection
than the second one's. -/
theorem claim_C9 (doc : Document) (i j : Nat) (hij : i < j)
    (hj : j < doc.calls.length) (dA dB : Diagnostic)
    (hA : emitFor doc.version (doc.calls.get ⟨i, Nat.lt_trans hij hj⟩) =
      some dA)
    (hB : emitFor doc.version (doc.calls.get ⟨j, hj⟩) = some dB) :
    ∃ p q, p < q ∧
      (runRule CallInputUnnecessaryRule.default doc).2.diagnostics.get? p =
        some dA ∧
      (runRule CallInputUnnecessaryRule.default doc).2.diagnostics.get? q =
        some dB := by
  rw [runRule_eq]
  exact filterMap_order (emitFor doc.version) doc.calls i j hij hj dA dB hA hB

/-- Witness for C9 on a document with two offending call statements: the
earlier call's diagnostic precedes the later call's in the collection. -/
theorem claim_C9_witness :
    ∃ p q, p < q ∧
      (runRule CallInputUnnecessaryRule.default exampleDocTwo).2.diagnostics.get?
        p = some (call_input_unnecessary ⟨11, 5⟩) ∧
      (runRule CallInputUnnecessaryRule.default exampleDocTwo).2.diagnostics.get?
        q = some (call_input_unnecessary ⟨40, 5⟩) :=
  claim_C9 exampleDocTwo 0 1 (by decide) (by decide)
    (call_input_unnecessary ⟨11, 5⟩) (call_input_unnecessary ⟨40, 5⟩)
    (by decide) (by decide)

/-- C10: every diagnostic the rule emits into the final collection carries
the fixed suggested-fix text — the optional fix field is always populated
by this rule. -/
theorem claim_C10 (rule : CallInputUnnecessaryRule) (doc : Document)
    (d : Diagnostic) (hd : d ∈ (runRule rule doc).2.diagnostics) :
    d.fix = some "remove the \x27input:\x27 keyword from the call statement" := by
  rw [runRule_eq] at hd
  simp only at hd
  rw [List.mem_filterMap] at hd
  obtain ⟨c, _, hc⟩ := hd
  unfold emitFor at hc
  split at hc
  · exact absurd hc (by simp)
  · split at hc
    · split at hc
      · exact absurd hc (by simp)
      · have h := Option.some.inj hc
        subst h
        rfl
    · exact absurd hc (by simp)

/-- Witness for C10: the diagnostic produced on the concrete version-1.2
document carries the fix text. -/
theorem claim_C10_witness :
    (call_input_unnecessary ⟨11, 5⟩).fix =
      some "remove the \x27input:\x27 keyword from the call statement" :=
  claim_C10 CallInputUnnecessaryRule.default exampleDoc
    (call_input_unnecessary ⟨11, 5⟩) (by decide)

end Sprocket
